import Mathlib

/-!
# Verification of the gobject content-addressable object store

Shallow embedding of `main.go` of the gobject repository: an HTTP
content-addressable blob store with a secondary bucket/key index.
Bytes are modelled as `Fin 256`, the store directory as an association
list keyed by file name stem, and each fallible system call of the Go
code as an injectable fault flag.
-/

/-- A byte, as stored in Go byte slices. -/
abbrev GByte := Fin 256

/-- Truncation of a natural number to a byte (used for big-endian output). -/
def byteOf (x : Nat) : GByte := ⟨x % 256, Nat.mod_lt x (by norm_num)⟩

/-! ## SHA-256 (crypto/sha256)

Executable model of the SHA-256 function used by `putAtomicStream`
through `sha256.New` / `h.Write` / `h.Sum`.  The streaming Go hash is
modelled observationally: the bytes written are accumulated and hashed
in one go by `sha256`, which implements FIPS 180-4. -/

/-- 2^32, the modulus of all SHA-256 word arithmetic. -/
def MOD32 : Nat := 4294967296

/-- Right rotation of a 32-bit word. -/
def rotr (n x : Nat) : Nat := ((x >>> n) ||| (x <<< (32 - n))) % MOD32

/-- SHA-256 choice function. -/
def ch256 (x y z : Nat) : Nat := (x &&& y) ^^^ ((x ^^^ 4294967295) &&& z)

/-- SHA-256 majority function. -/
def maj256 (x y z : Nat) : Nat := (x &&& y) ^^^ (x &&& z) ^^^ (y &&& z)

/-- Big sigma-0. -/
def bs0 (x : Nat) : Nat := rotr 2 x ^^^ rotr 13 x ^^^ rotr 22 x

/-- Big sigma-1. -/
def bs1 (x : Nat) : Nat := rotr 6 x ^^^ rotr 11 x ^^^ rotr 25 x

/-- Small sigma-0. -/
def ss0 (x : Nat) : Nat := rotr 7 x ^^^ rotr 18 x ^^^ (x >>> 3)

/-- Small sigma-1. -/
def ss1 (x : Nat) : Nat := rotr 17 x ^^^ rotr 19 x ^^^ (x >>> 10)

/-- The 64 SHA-256 round constants. -/
def k256 : List Nat :=
  [1116352408, 1899447441, 3049323471, 3921009573,
   961987163, 1508970993, 2453635748, 2870763221,
   3624381080, 310598401, 607225278, 1426881987,
   1925078388, 2162078206, 2614888103, 3248222580,
   3835390401, 4022224774, 264347078, 604807628,
   770255983, 1249150122, 1555081692, 1996064986,
   2554220882, 2821834349, 2952996808, 3210313671,
   3336571891, 3584528711, 113926993, 338241895,
   666307205, 773529912, 1294757372, 1396182291,
   1695183700, 1986661051, 2177026350, 2456956037,
   2730485921, 2820302411, 3259730800, 3345764771,
   3516065817, 3600352804, 4094571909, 275423344,
   430227734, 506948616, 659060556, 883997877,
   958139571, 1322822218, 1537002063, 1747873779,
   1955562222, 2024104815, 2227730452, 2361852424,
   2428436474, 2756734187, 3204031479, 3329325298]

/-- The eight working registers of the compression function. -/
structure Hash8 where
  a : Nat
  b : Nat
  c : Nat
  d : Nat
  e : Nat
  f : Nat
  g : Nat
  h : Nat
deriving Repr, DecidableEq

/-- Initial hash value of SHA-256. -/
def sha256Init : Hash8 :=
  ⟨1779033703, 3144134277, 1013904242, 2773480762, 1359893119, 2600822924, 528734635, 1541459225⟩

/-- One round of the SHA-256 compression function. -/
def round256 (st : Hash8) (kw : Nat × Nat) : Hash8 :=
  let t1 := (st.h + bs1 st.e + ch256 st.e st.f st.g + kw.1 + kw.2) % MOD32
  let t2 := (bs0 st.a + maj256 st.a st.b st.c) % MOD32
  { a := (t1 + t2) % MOD32, b := st.a, c := st.b, d := st.c,
    e := (st.d + t1) % MOD32, f := st.e, g := st.f, h := st.g }

/-- Big-endian packing of bytes into 32-bit words (groups of four). -/
def toWords : List GByte → List Nat
  | b0 :: b1 :: b2 :: b3 :: rest =>
      (b0.val * 16777216 + b1.val * 65536 + b2.val * 256 + b3.val) :: toWords rest
  | _ => []

/-- One step of the message-schedule extension. -/
def extendStep (ws : List Nat) : List Nat :=
  let n := ws.length
  ws ++ [(ss1 (ws.getD (n - 2) 0) + ws.getD (n - 7) 0 +
          ss0 (ws.getD (n - 15) 0) + ws.getD (n - 16) 0) % MOD32]

/-- Extend the 16 block words to the 64 schedule words. -/
def extendTo64 (ws : List Nat) : List Nat :=
  (List.range 48).foldl (fun acc _ => extendStep acc) ws

/-- Compress a single 64-byte block into the hash state. -/
def compressBlock (hv : Hash8) (block : List GByte) : Hash8 :=
  let ws := extendTo64 (toWords block)
  let st := (k256.zip ws).foldl round256 hv
  { a := (hv.a + st.a) % MOD32, b := (hv.b + st.b) % MOD32,
    c := (hv.c + st.c) % MOD32, d := (hv.d + st.d) % MOD32,
    e := (hv.e + st.e) % MOD32, f := (hv.f + st.f) % MOD32,
    g := (hv.g + st.g) % MOD32, h := (hv.h + st.h) % MOD32 }

/-- Big-endian bytes of the 64-bit message bit length. -/
def lenBytes (len : Nat) : List GByte :=
  let bl := 8 * len
  [byteOf (bl >>> 56), byteOf (bl >>> 48), byteOf (bl >>> 40), byteOf (bl >>> 32),
   byteOf (bl >>> 24), byteOf (bl >>> 16), byteOf (bl >>> 8), byteOf bl]

/-- SHA-256 padding: append 0x80, zeros, and the bit length, to a multiple of 64. -/
def padMessage (m : List GByte) : List GByte :=
  let z := (120 - (m.length + 1) % 64) % 64
  m ++ byteOf 128 :: (List.replicate z (byteOf 0) ++ lenBytes m.length)

/-- Split a byte list into 64-byte chunks (structural recursion on a
length-sized fuel so that the kernel can evaluate it). -/
def chunksAux : Nat → List GByte → List (List GByte)
  | 0, _ => []
  | _, [] => []
  | fuel + 1, x :: xs => ((x :: xs).take 64) :: chunksAux fuel ((x :: xs).drop 64)

/-- Split a byte list into 64-byte chunks. -/
def chunks64 (l : List GByte) : List (List GByte) := chunksAux l.length l

/-- Big-endian bytes of one 32-bit word. -/
def wordBytes (w : Nat) : List GByte :=
  [byteOf (w >>> 24), byteOf (w >>> 16), byteOf (w >>> 8), byteOf w]

/-- SHA-256 of a byte sequence (FIPS 180-4), as computed by Go crypto/sha256. -/
def sha256 (m : List GByte) : List GByte :=
  let hv := (chunks64 (padMessage m)).foldl compressBlock sha256Init
  wordBytes hv.a ++ wordBytes hv.b ++ wordBytes hv.c ++ wordBytes hv.d ++
  wordBytes hv.e ++ wordBytes hv.f ++ wordBytes hv.g ++ wordBytes hv.h

/-! ## Hex encoding (encoding/hex) -/

/-- The digit table of encoding/hex: the string 0123456789abcdef. -/
def hextable : List Char := "0123456789abcdef".toList

/-- The two digits encoding one byte: table entries at its high and low
nibble, as in the loop of hex.Encode. -/
def hexPair (b : GByte) : List Char :=
  [hextable.getD (b.val / 16) '0', hextable.getD (b.val % 16) '0']

/-- Lowercase hex encoding of a byte sequence, as Go hex.EncodeToString. -/
def hexEncode (bs : List GByte) : String :=
  String.mk ((bs.map hexPair).flatten)

/-- Sanity anchor: the model reproduces the official SHA-256 value of "abc". -/
theorem sha256_abc_vector :
    hexEncode (sha256 ([97, 98, 99] : List GByte)) =
      "ba7816bf8f01cfea414140de5dae2223b00361a396177a9cb410ff61f20015ad" := by
  decide

/-! ## Data model of the store directory

One file per blob named digest.blob, one metadata record digest.meta.json,
the bolt bucket "objects" for the naming index, and the tmp staging
subdirectory, all under the store directory. -/

/-- Sidecar metadata record (type Meta of main.go). -/
structure GoMeta where
  contentType : String
  size : Nat
deriving Repr, DecidableEq

/-- Naming-index record (type IndexEntry of main.go). -/
structure IndexEntry where
  sha : String
  size : Nat
  contentType : String
  modTime : Nat
deriving Repr, DecidableEq

/-- Observable state of the store directory and the index database. -/
structure Store where
  blobs : List (String × List GByte)
  metas : List (String × GoMeta)
  index : List (String × IndexEntry)
  tmps : List (List GByte)
deriving Repr, DecidableEq

/-- Name lookup in a directory / bucket, modelled as first match in an
association list (later entries shadowed, as cons is used for writes). -/
def alookup {α : Type} : List (String × α) → String → Option α
  | [], _ => none
  | (k, v) :: rest, q => if k = q then some v else alookup rest q

/-- Removal of a key, as bolt Delete. -/
def eraseKey {α : Type} (l : List (String × α)) (q : String) : List (String × α) :=
  l.filter (fun p => p.1 != q)

/-- The empty store directory. -/
def store0 : Store := ⟨[], [], [], []⟩

/-- Fault injection: one flag per fallible system call of putAtomicStream,
true meaning that call returns an error. -/
structure Faults where
  mkdirTmp : Bool
  createTemp : Bool
  sniffRead : Bool
  writeSniff : Bool
  copyBody : Bool
  statFinal : Bool
  syncTmp : Bool
  closeTmp : Bool
  renameTmp : Bool
  writeMeta : Bool
deriving Repr, DecidableEq

/-- The fault-free run: every system call succeeds. -/
def noFaults : Faults :=
  ⟨false, false, false, false, false, false, false, false, false, false⟩

/-- Successful result triple (id, size, ct) of putAtomicStream. -/
structure PutResult where
  id : String
  size : Nat
  ct : String
deriving Repr, DecidableEq

/-- Model of putAtomicStream (main.go lines 152-234).  The media-type
sniffer http.DetectContentType is an external collaborator and is passed
in as the function detect.  The streaming hash is modelled by
accumulating the bytes written to it and hashing once at Sum; the
deferred f.Close / os.Remove cleanup is folded into each exit path, so
every returned state already reflects the removed staging file. -/
def putAtomicStream (detect : List GByte → String) (fl : Faults) (s : Store)
    (r : List GByte) : Except Unit PutResult × Store :=
  -- os.MkdirAll(tmpDir)
  if fl.mkdirTmp then (.error (), s)
  -- os.CreateTemp(tmpDir, "put-*.tmp"); from here cleanup removes the file
  else if fl.createTemp then (.error (), s)
  -- io.ReadFull(r, sniff[:]): a genuine read error aborts, and a
  -- zero-length stream yields io.EOF which is not io.ErrUnexpectedEOF
  else if fl.sniffRead then (.error (), s)
  else if r.length = 0 then (.error (), s)
  else
    -- ct := http.DetectContentType(sniff[:n0]) with n0 = min 512 len
    let sniffPart := r.take 512
    let ct := detect sniffPart
    -- f.Write(sniff[:n0]) and h.Write(sniff[:n0]) (n0 > 0 here)
    if fl.writeSniff then (.error (), s)
    else
      let hacc1 : List GByte := [] ++ sniffPart
      let size1 : Nat := 0 + min 512 r.length
      -- io.Copy(io.MultiWriter(f, h), r) for the remainder
      if fl.copyBody then (.error (), s)
      else
        let rest := r.drop 512
        let tmpContent := hacc1 ++ rest
        let hacc2 := hacc1 ++ rest
        let size2 := size1 + rest.length
        -- id := hex.EncodeToString(h.Sum(nil))
        let id := hexEncode (sha256 hacc2)
        -- os.Stat(finalPath): an error other than IsNotExist aborts
        if fl.statFinal then (.error (), s)
        else
          match alookup s.blobs id with
          | some _ =>
            -- idempotent path: blob already published; ensure meta exists,
            -- ignoring any error of os.WriteFile
            match alookup s.metas id with
            | none =>
              if fl.writeMeta then (.ok ⟨id, size2, ct⟩, s)
              else (.ok ⟨id, size2, ct⟩,
                    { s with metas := (id, ⟨ct, size2⟩) :: s.metas })
            | some _ => (.ok ⟨id, size2, ct⟩, s)
          | none =>
            -- f.Sync(); f.Close(); os.Rename(tmpName, finalPath)
            if fl.syncTmp then (.error (), s)
            else if fl.closeTmp then (.error (), s)
            else if fl.renameTmp then (.error (), s)
            else
              let s1 := { s with blobs := (id, tmpContent) :: s.blobs }
              -- os.WriteFile(metaPath, ...): failure is propagated, but the
              -- rename has already published the blob
              if fl.writeMeta then (.error (), s1)
              else (.ok ⟨id, size2, ct⟩,
                    { s1 with metas := (id, ⟨ct, size2⟩) :: s1.metas })

/-! ## Request-path helpers (regexp, path/filepath, strings) -/

/-- Membership in the character class 0-9a-f. -/
def isHexChar (c : Char) : Bool := ('0' ≤ c && c ≤ '9') || ('a' ≤ c && c ≤ 'f')

/-- Model of idRe.MatchString for the anchored pattern of 64 characters
drawn from 0-9a-f (var idRe, main.go line 37). -/
def idReMatch (s : String) : Bool := s.length == 64 && s.toList.all isHexChar

/-- Model of filepath.Base on slash-separated paths: empty input gives
a dot, trailing separators are stripped, then everything up to the last
separator is dropped; an all-separator path gives the separator. -/
def filepathBase (p : String) : String :=
  if p = "" then "."
  else
    let cs := (p.toList.reverse.dropWhile (fun c => c == '/')).reverse
    if cs.isEmpty then "/"
    else String.mk ((cs.reverse.takeWhile (fun c => c != '/')).reverse)

/-- Model of strings.TrimPrefix(p, slash): drop one leading separator
when present. -/
def trimOneSlash (p : String) : String :=
  match p.toList with
  | '/' :: rest => String.mk rest
  | _ => p

/-- Model of strings.SplitN(p, slash, 2): split at the first separator,
yielding one part when none occurs. -/
def splitN2 (p : String) : List String :=
  match p.toList.findIdx? (fun c => c == '/') with
  | none => [p]
  | some i => [String.mk (p.toList.take i), String.mk (p.toList.drop (i + 1))]

/-! ## HTTP handlers -/

/-- Response of the POST /objects handler: status plus the JSON payload
(PutResponse) when successful. -/
structure PostResp where
  status : Nat
  payload : Option PutResult
deriving Repr, DecidableEq

/-- Model of the POST /objects handler (main.go lines 64-82): any error
of putAtomicStream is mapped to a 500 response. -/
def handleObjectsPost (detect : List GByte → String) (fl : Faults) (s : Store)
    (method : String) (body : List GByte) : PostResp × Store :=
  if method ≠ "POST" then (⟨405, none⟩, s)
  else
    match putAtomicStream detect fl s body with
    | (.error _, s') => (⟨500, none⟩, s')
    | (.ok r, s') => (⟨200, some r⟩, s')

/-- Response of the GET /objects/id handler.  The field opened records
the blob file name joined and opened by the handler (none when the
request never reaches the filesystem). -/
structure GetResp where
  status : Nat
  body : Option (List GByte)
  ctHeader : Option String
  opened : Option String
deriving Repr, DecidableEq

/-- Model of the GET|HEAD /objects/id handler (main.go lines 85-129):
base of the URL path, idRe validation, open of the blob, media type from
the sidecar with octet-stream fallback, then http.ServeContent. -/
def handleObjectsGet (s : Store) (method : String) (urlPath : String) : GetResp :=
  if method ≠ "GET" ∧ method ≠ "HEAD" then ⟨405, none, none, none⟩
  else
    let id := filepathBase urlPath
    if idReMatch id = false then ⟨400, none, none, none⟩
    else
      match alookup s.blobs id with
      | none => ⟨404, none, none, some (id ++ ".blob")⟩
      | some content =>
        let ct := match alookup s.metas id with
          | some m => if m.contentType ≠ "" then some m.contentType else none
          | none => some "application/octet-stream"
        ⟨200, some content, ct, some (id ++ ".blob")⟩

/-- Response of the bucket/key handler.  The field indexAccessed records
whether the handler ran a transaction against the index database. -/
structure KeyResp where
  status : Nat
  body : Option (List GByte)
  etag : Option String
  ctHeader : Option String
  indexAccessed : Bool
deriving Repr, DecidableEq

/-- Model of handleObjectByKey (main.go lines 248-332).  indexTxFail
injects a failure of the bolt Update transaction (in which case nothing
is written, the transaction being rolled back). -/
def handleObjectByKey (detect : List GByte → String) (fl : Faults)
    (indexTxFail : Bool) (now : Nat) (s : Store) (method : String)
    (urlPath : String) (body : List GByte) : KeyResp × Store :=
  let path := trimOneSlash urlPath
  match splitN2 path with
  | [bucket, key] =>
    let indexKey := bucket ++ "/" ++ key
    if method = "PUT" then
      match putAtomicStream detect fl s body with
      | (.error _, s') => (⟨500, none, none, none, false⟩, s')
      | (.ok r, s') =>
        let entry : IndexEntry := ⟨r.id, r.size, r.ct, now⟩
        if indexTxFail then (⟨500, none, none, none, true⟩, s')
        else (⟨201, none, some r.id, none, true⟩,
              { s' with index := (indexKey, entry) :: s'.index })
    else if method = "GET" ∨ method = "HEAD" then
      match alookup s.index indexKey with
      | none => (⟨404, none, none, none, true⟩, s)
      | some e =>
        match alookup s.blobs e.sha with
        | none => (⟨500, none, none, none, true⟩, s)
        | some c => (⟨200, some c, some e.sha, some e.contentType, true⟩, s)
    else if method = "DELETE" then
      if indexTxFail then (⟨500, none, none, none, true⟩, s)
      else (⟨204, none, none, none, true⟩,
            { s with index := eraseKey s.index indexKey })
    else (⟨405, none, none, none, false⟩, s)
  | _ => (⟨400, none, none, none, false⟩, s)

/-! ## Characterization lemmas for putAtomicStream -/

/-- The store left by a fault-free put of b, by case on whether the blob
and its sidecar already exist. -/
def putPost (detect : List GByte → String) (s : Store) (b : List GByte) : Store :=
  match alookup s.blobs (hexEncode (sha256 b)) with
  | none =>
    { s with
      blobs := (hexEncode (sha256 b), b) :: s.blobs,
      metas := (hexEncode (sha256 b), ⟨detect (b.take 512), b.length⟩) :: s.metas }
  | some _ =>
    match alookup s.metas (hexEncode (sha256 b)) with
    | none =>
      { s with
        metas := (hexEncode (sha256 b), ⟨detect (b.take 512), b.length⟩) :: s.metas }
    | some _ => s

/-- Fault-free ingestion of a nonempty stream b succeeds, returns the hex
SHA-256 digest of b with its exact length and sniffed type, and leaves the
store putPost describes. -/
theorem putAtomicStream_noFaults (detect : List GByte → String) (s : Store)
    (b : List GByte) (hb : b ≠ []) :
    putAtomicStream detect noFaults s b =
      (.ok ⟨hexEncode (sha256 b), b.length, detect (b.take 512)⟩, putPost detect s b) := by
  have hlen : ¬ b.length = 0 := by simpa [List.length_eq_zero] using hb
  have hsplit : b.take 512 ++ b.drop 512 = b := List.take_append_drop _ _
  have hsize : 0 + min 512 b.length + (b.drop 512).length = b.length := by
    simp only [Nat.zero_add, List.length_drop]
    omega
  unfold putAtomicStream putPost noFaults
  simp only [Bool.false_eq_true, if_false, hlen, List.nil_append, hsplit, hsize]
  cases halo : alookup s.blobs (hexEncode (sha256 b)) with
  | none => simp
  | some c =>
    cases hmeta : alookup s.metas (hexEncode (sha256 b)) with
    | none => simp
    | some m => simp

/-! ## The digest identifier is 64 lowercase hex characters -/

/-- A SHA-256 digest is 32 bytes long. -/
theorem sha256_length (m : List GByte) : (sha256 m).length = 32 := by
  simp [sha256, wordBytes]

/-- The character list behind hexEncode has twice the byte count. -/
theorem hexChars_length (bs : List GByte) : ((bs.map hexPair).flatten).length = 2 * bs.length := by
  induction bs with
  | nil => simp
  | cons b t ih =>
    simp only [List.map_cons, List.flatten_cons, List.length_append, ih, hexPair,
      List.length_cons, List.length_nil]
    omega

/-- Every entry of the digit table at a nibble position is in 0-9a-f. -/
theorem hextable_nibble_hex : ∀ n : Fin 16, isHexChar (hextable.getD n.val '0') = true := by
  decide

/-- Both digits of an encoded byte are in 0-9a-f. -/
theorem hexPair_all_hex (b : GByte) : ∀ c ∈ hexPair b, isHexChar c = true := by
  intro c hc
  have h1 : b.val / 16 < 16 := by omega
  have h2 : b.val % 16 < 16 := Nat.mod_lt _ (by norm_num)
  have e1 := hextable_nibble_hex ⟨b.val / 16, h1⟩
  have e2 := hextable_nibble_hex ⟨b.val % 16, h2⟩
  simp only [hexPair, List.mem_cons, List.not_mem_nil, or_false] at hc
  rcases hc with rfl | rfl
  · exact e1
  · exact e2

/-- Every character of a hex encoding is in 0-9a-f. -/
theorem hexEncode_all_hex (bs : List GByte) :
    ∀ c ∈ ((bs.map hexPair).flatten), isHexChar c = true := by
  induction bs with
  | nil => simp
  | cons b t ih =>
    intro c hc
    simp only [List.map_cons, List.flatten_cons, List.mem_append] at hc
    rcases hc with hc | hc
    · exact hexPair_all_hex b c hc
    · exact ih c hc

/-- The identifier computed for any byte sequence matches idRe: exactly
64 characters, all from 0-9a-f. -/
theorem idReMatch_digest (b : List GByte) : idReMatch (hexEncode (sha256 b)) = true := by
  have hlen : ((sha256 b).map hexPair).flatten.length = 64 := by
    rw [hexChars_length, sha256_length]
  simp only [idReMatch, hexEncode, Bool.and_eq_true, beq_iff_eq]
  constructor
  · exact hlen
  · rw [List.all_eq_true]
    intro c hc
    exact hexEncode_all_hex (sha256 b) c hc

/-- A hex-digit character is not a separator. -/
theorem isHexChar_ne_slash (c : Char) (h : isHexChar c = true) : (c == '/') = false := by
  cases hcc : (c == '/') with
  | false => rfl
  | true =>
    have : c = '/' := by simpa using hcc
    subst this
    exact absurd h (by decide)

/-! ## filepath.Base on digest URLs -/

/-- takeWhile passes over a first segment that satisfies the predicate. -/
theorem takeWhile_append_of_all {α : Type} (p : α → Bool) (l1 l2 : List α)
    (h : ∀ a ∈ l1, p a = true) :
    (l1 ++ l2).takeWhile p = l1 ++ l2.takeWhile p := by
  induction l1 with
  | nil => simp
  | cons a t ih =>
    have ha : p a = true := h a (List.mem_cons_self a t)
    simp only [List.cons_append, List.takeWhile_cons, ha, if_true]
    rw [ih (fun x hx => h x (List.mem_cons_of_mem a hx))]

/-- filepath.Base of an /objects/ URL whose last segment is nonempty and
separator-free is that segment. -/
theorem filepathBase_objects (id : String) (hne : id.toList ≠ [])
    (hns : ∀ c ∈ id.toList, (c == '/') = false) :
    filepathBase ("/objects/" ++ id) = id := by
  have hdata : ("/objects/" ++ id).toList = "/objects/".toList ++ id.toList := by
    simp [String.toList]
  have hpne : ("/objects/" ++ id) ≠ "" := by
    intro h
    have h2 := congrArg String.toList h
    rw [hdata] at h2
    simp at h2
  obtain ⟨a, t, hrev⟩ : ∃ a t, id.toList.reverse = a :: t := by
    cases hr : id.toList.reverse with
    | nil => exact absurd (List.reverse_eq_nil_iff.mp hr) hne
    | cons a t => exact ⟨a, t, rfl⟩
  have ha : (a == '/') = false := by
    refine hns a ?_
    have : a ∈ id.toList.reverse := by
      rw [hrev]; exact List.mem_cons_self a t
    simpa using this
  have hallrev : ∀ c ∈ id.toList.reverse, (c != '/') = true := by
    intro c hc
    have h1 : (c == '/') = false := hns c (by simpa using hc)
    simp only [bne, h1, Bool.not_false]
  unfold filepathBase
  rw [if_neg hpne, hdata]
  rw [List.reverse_append, hrev, List.cons_append, List.dropWhile_cons, ha]
  simp only [Bool.false_eq_true, if_false]
  have hcs : (a :: (t ++ "/objects/".toList.reverse)).reverse.isEmpty = false := by
    cases hkk : (a :: (t ++ "/objects/".toList.reverse)).reverse with
    | nil =>
      exact absurd (List.reverse_eq_nil_iff.mp hkk) (by simp)
    | cons x y => rfl
  rw [hcs]
  simp only [Bool.false_eq_true, if_false, List.reverse_reverse]
  rw [← List.cons_append, ← hrev,
      takeWhile_append_of_all _ _ _ hallrev]
  have hpretake : "/objects/".toList.reverse.takeWhile (fun c => c != '/') = [] := by
    decide
  rw [hpretake, List.append_nil, List.reverse_reverse]
  rfl

/-! ## Concrete fixtures -/

/-- A concrete media-type classifier standing in for http.DetectContentType. -/
def detect0 : List GByte → String := fun _ => "application/octet-stream"

/-- A classifier returning the Go sniffing result for text. -/
def dText : List GByte → String := fun _ => "text/plain; charset=utf-8"

/-- Fault schedule failing only the sidecar metadata write. -/
def metaFault : Faults := { noFaults with writeMeta := true }

/-- Fault schedule failing only the staging-directory creation. -/
def mkdirFault : Faults := { noFaults with mkdirTmp := true }

/-- A store already holding the blob for the byte 97. -/
def storeDup : Store := ⟨[(hexEncode (sha256 [97]), [97])], [], [], []⟩

/-- A store whose index references a digest with no blob behind it. -/
def storeDangling : Store :=
  ⟨[], [], [("b/k", ⟨"deadbeef", 0, "application/octet-stream", 0⟩)], []⟩

/-! ## Claims -/

/-- C1, as frozen, is false at the empty byte sequence: putAtomicStream
does not return an id for it, because io.ReadFull yields io.EOF on an
empty body and the function propagates that error. -/
theorem C1_counterexample :
    ¬ ∃ r : PutResult, (putAtomicStream detect0 noFaults store0 []).1 = Except.ok r := by
  intro hex
  obtain ⟨r, hr⟩ := hex
  have h0 : (putAtomicStream detect0 noFaults store0 []).1 = Except.error () := rfl
  rw [h0] at hr
  exact Except.noConfusion hr

/-- C1 (amended to nonempty inputs): for every nonempty byte sequence b,
fault-free ingestion via putAtomicStream returns the lowercase hex
encoding of the SHA-256 digest of b as id — a 64-character 0-9a-f
string — and the length of b as size, independently of the store state
and of the sniffer, so the same b always yields the same id. -/
theorem C1_put_digest (detect : List GByte → String) (s : Store)
    (b : List GByte) (hb : b ≠ []) :
    (putAtomicStream detect noFaults s b).1 =
      Except.ok ⟨hexEncode (sha256 b), b.length, detect (b.take 512)⟩ ∧
    idReMatch (hexEncode (sha256 b)) = true := by
  refine ⟨?_, idReMatch_digest b⟩
  rw [putAtomicStream_noFaults detect s b hb]

/-- Witness for C1_put_digest at b = [97]. -/
theorem C1_put_digest_witness :
    (([97] : List GByte) ≠ []) ∧
    ((putAtomicStream detect0 noFaults store0 [97]).1 =
      Except.ok ⟨hexEncode (sha256 [97]), ([97] : List GByte).length,
        detect0 (([97] : List GByte).take 512)⟩ ∧
     idReMatch (hexEncode (sha256 [97])) = true) :=
  ⟨by decide, C1_put_digest detect0 store0 [97] (by decide)⟩

/-- C2: after a successful fresh put of b the blob file under the
returned digest holds exactly b (sniffed prefix plus streamed remainder,
unmodified), and a GET of /objects/digest serves exactly b, the reported
size (both in the put response and as the length of the served content)
being the length of b. -/
theorem C2_roundtrip (detect : List GByte → String) (s : Store) (b : List GByte)
    (hb : b ≠ []) (hfresh : alookup s.blobs (hexEncode (sha256 b)) = none) :
    (putAtomicStream detect noFaults s b).1 =
      Except.ok ⟨hexEncode (sha256 b), b.length, detect (b.take 512)⟩ ∧
    alookup (putAtomicStream detect noFaults s b).2.blobs (hexEncode (sha256 b)) = some b ∧
    (handleObjectsGet (putAtomicStream detect noFaults s b).2 "GET"
        ("/objects/" ++ hexEncode (sha256 b))).status = 200 ∧
    (handleObjectsGet (putAtomicStream detect noFaults s b).2 "GET"
        ("/objects/" ++ hexEncode (sha256 b))).body = some b := by
  have hlen64 : ((sha256 b).map hexPair).flatten.length = 64 := by
    rw [hexChars_length, sha256_length]
  have hne : (hexEncode (sha256 b)).toList ≠ [] := by
    intro h
    have : ((sha256 b).map hexPair).flatten = [] := h
    rw [this] at hlen64
    simp at hlen64
  have hns : ∀ c ∈ (hexEncode (sha256 b)).toList, (c == '/') = false := by
    intro c hc
    exact isHexChar_ne_slash c (hexEncode_all_hex (sha256 b) c hc)
  have hbase : filepathBase ("/objects/" ++ hexEncode (sha256 b)) = hexEncode (sha256 b) :=
    filepathBase_objects _ hne hns
  rw [putAtomicStream_noFaults detect s b hb]
  unfold putPost
  rw [hfresh]
  refine ⟨rfl, ?_, ?_, ?_⟩
  · simp [alookup]
  · unfold handleObjectsGet
    rw [if_neg (by simp), hbase]
    simp [alookup, idReMatch_digest b]
  · unfold handleObjectsGet
    rw [if_neg (by simp), hbase]
    simp [alookup, idReMatch_digest b]

/-- Witness for C2_roundtrip at b = [97] on the empty store. -/
theorem C2_roundtrip_witness :
    (([97] : List GByte) ≠ []) ∧
    alookup store0.blobs (hexEncode (sha256 [97])) = none ∧
    ((putAtomicStream detect0 noFaults store0 [97]).1 =
      Except.ok ⟨hexEncode (sha256 [97]), ([97] : List GByte).length,
        detect0 (([97] : List GByte).take 512)⟩ ∧
     alookup (putAtomicStream detect0 noFaults store0 [97]).2.blobs
       (hexEncode (sha256 [97])) = some [97] ∧
     (handleObjectsGet (putAtomicStream detect0 noFaults store0 [97]).2 "GET"
         ("/objects/" ++ hexEncode (sha256 [97]))).status = 200 ∧
     (handleObjectsGet (putAtomicStream detect0 noFaults store0 [97]).2 "GET"
         ("/objects/" ++ hexEncode (sha256 [97]))).body = some [97]) :=
  ⟨by decide, rfl, C2_roundtrip detect0 store0 [97] (by decide) rfl⟩

/-- C3, as frozen, is false: when the final sidecar metadata write fails,
putAtomicStream returns an error although the blob has already been
atomically published, so a blob file for the computed digest is visible. -/
theorem C3_counterexample :
    (putAtomicStream detect0 metaFault store0 [97]).1 = Except.error () ∧
    alookup (putAtomicStream detect0 metaFault store0 [97]).2.blobs
      (hexEncode (sha256 [97])) = some [97] := by
  constructor
  · rfl
  · decide

/-- C3 (amended): whenever putAtomicStream returns an error, the staging
area, the sidecar records and the index are unchanged, and the whole
store is unchanged except on one failure path: when the final sidecar
metadata write fails, the blob for the computed digest has already been
published and remains. -/
theorem C3_error_state (detect : List GByte → String) (fl : Faults) (s s' : Store)
    (b : List GByte)
    (h : putAtomicStream detect fl s b = (Except.error (), s')) :
    s'.tmps = s.tmps ∧ s'.metas = s.metas ∧ s'.index = s.index ∧
    (s' = s ∨ (fl.writeMeta = true ∧ s'.blobs = (hexEncode (sha256 b), b) :: s.blobs)) := by
  unfold putAtomicStream at h
  simp only [List.nil_append, List.take_append_drop] at h
  by_cases hc1 : fl.mkdirTmp = true
  · rw [if_pos hc1] at h
    have h2 : s = s' := congrArg Prod.snd h
    subst h2
    exact ⟨rfl, rfl, rfl, Or.inl rfl⟩
  rw [if_neg hc1] at h
  by_cases hc2 : fl.createTemp = true
  · rw [if_pos hc2] at h
    have h2 : s = s' := congrArg Prod.snd h
    subst h2
    exact ⟨rfl, rfl, rfl, Or.inl rfl⟩
  rw [if_neg hc2] at h
  by_cases hc3 : fl.sniffRead = true
  · rw [if_pos hc3] at h
    have h2 : s = s' := congrArg Prod.snd h
    subst h2
    exact ⟨rfl, rfl, rfl, Or.inl rfl⟩
  rw [if_neg hc3] at h
  by_cases hc4 : b.length = 0
  · rw [if_pos hc4] at h
    have h2 : s = s' := congrArg Prod.snd h
    subst h2
    exact ⟨rfl, rfl, rfl, Or.inl rfl⟩
  rw [if_neg hc4] at h
  by_cases hc5 : fl.writeSniff = true
  · rw [if_pos hc5] at h
    have h2 : s = s' := congrArg Prod.snd h
    subst h2
    exact ⟨rfl, rfl, rfl, Or.inl rfl⟩
  rw [if_neg hc5] at h
  by_cases hc6 : fl.copyBody = true
  · rw [if_pos hc6] at h
    have h2 : s = s' := congrArg Prod.snd h
    subst h2
    exact ⟨rfl, rfl, rfl, Or.inl rfl⟩
  rw [if_neg hc6] at h
  by_cases hc7 : fl.statFinal = true
  · rw [if_pos hc7] at h
    have h2 : s = s' := congrArg Prod.snd h
    subst h2
    exact ⟨rfl, rfl, rfl, Or.inl rfl⟩
  rw [if_neg hc7] at h
  cases halo : alookup s.blobs (hexEncode (sha256 b)) with
  | some c =>
    simp only [halo] at h
    cases hmm : alookup s.metas (hexEncode (sha256 b)) with
    | none =>
      simp only [hmm] at h
      by_cases hw : fl.writeMeta = true
      · rw [if_pos hw] at h
        exact absurd (congrArg Prod.fst h) (by simp)
      · rw [if_neg hw] at h
        exact absurd (congrArg Prod.fst h) (by simp)
    | some m =>
      simp only [hmm] at h
      exact absurd (congrArg Prod.fst h) (by simp)
  | none =>
    simp only [halo] at h
    by_cases hc8 : fl.syncTmp = true
    · rw [if_pos hc8] at h
      have h2 : s = s' := congrArg Prod.snd h
      subst h2
      exact ⟨rfl, rfl, rfl, Or.inl rfl⟩
    rw [if_neg hc8] at h
    by_cases hc9 : fl.closeTmp = true
    · rw [if_pos hc9] at h
      have h2 : s = s' := congrArg Prod.snd h
      subst h2
      exact ⟨rfl, rfl, rfl, Or.inl rfl⟩
    rw [if_neg hc9] at h
    by_cases hc10 : fl.renameTmp = true
    · rw [if_pos hc10] at h
      have h2 : s = s' := congrArg Prod.snd h
      subst h2
      exact ⟨rfl, rfl, rfl, Or.inl rfl⟩
    rw [if_neg hc10] at h
    by_cases hw : fl.writeMeta = true
    · rw [if_pos hw] at h
      have h2 : ({ s with blobs := (hexEncode (sha256 b), b) :: s.blobs } : Store) = s' :=
        congrArg Prod.snd h
      rw [← h2]
      exact ⟨rfl, rfl, rfl, Or.inr ⟨hw, rfl⟩⟩
    · rw [if_neg hw] at h
      exact absurd (congrArg Prod.fst h) (by simp)

/-- Witness for C3_error_state: a failing staging-directory creation on
the empty store. -/
theorem C3_error_state_witness :
    putAtomicStream detect0 mkdirFault store0 [97] = (Except.error (), store0) ∧
    (store0.tmps = store0.tmps ∧ store0.metas = store0.metas ∧
     store0.index = store0.index ∧
     (store0 = store0 ∨ (mkdirFault.writeMeta = true ∧
       store0.blobs = (hexEncode (sha256 [97]), [97]) :: store0.blobs))) :=
  ⟨rfl, C3_error_state detect0 mkdirFault store0 store0 [97] rfl⟩

/-- C4: when the blob for the computed digest already exists, a fault-free
put reports success with the same digest and computed size/type, writes
no blob (the blob directory is unchanged, so the existing file keeps its
bytes) and leaves no staging file; a missing sidecar record is created
from the newly computed media type and size, and an existing one leaves
the store untouched. -/
theorem C4_idempotent (detect : List GByte → String) (s : Store) (b c : List GByte)
    (hb : b ≠ [])
    (hdup : alookup s.blobs (hexEncode (sha256 b)) = some c) :
    (putAtomicStream detect noFaults s b).1 =
      Except.ok ⟨hexEncode (sha256 b), b.length, detect (b.take 512)⟩ ∧
    (putAtomicStream detect noFaults s b).2.blobs = s.blobs ∧
    (putAtomicStream detect noFaults s b).2.tmps = s.tmps ∧
    (alookup s.metas (hexEncode (sha256 b)) = none →
      alookup (putAtomicStream detect noFaults s b).2.metas (hexEncode (sha256 b)) =
        some ⟨detect (b.take 512), b.length⟩) ∧
    (∀ m, alookup s.metas (hexEncode (sha256 b)) = some m →
      (putAtomicStream detect noFaults s b).2 = s) := by
  rw [putAtomicStream_noFaults detect s b hb]
  unfold putPost
  cases hm : alookup s.metas (hexEncode (sha256 b)) with
  | none =>
    simp only [hdup, hm]
    exact ⟨trivial, trivial, trivial, fun _ => by simp [alookup],
           fun m hmm => Option.noConfusion hmm⟩
  | some m0 =>
    simp only [hdup, hm]
    exact ⟨trivial, trivial, trivial, fun hc => Option.noConfusion hc, fun m hmm => trivial⟩

/-- Witness for C4_idempotent: re-ingesting [97] into a store already
holding its blob and no sidecar. -/
theorem C4_idempotent_witness :
    (([97] : List GByte) ≠ []) ∧
    alookup storeDup.blobs (hexEncode (sha256 [97])) = some [97] ∧
    ((putAtomicStream detect0 noFaults storeDup [97]).1 =
      Except.ok ⟨hexEncode (sha256 [97]), ([97] : List GByte).length,
        detect0 (([97] : List GByte).take 512)⟩ ∧
     (putAtomicStream detect0 noFaults storeDup [97]).2.blobs = storeDup.blobs ∧
     (putAtomicStream detect0 noFaults storeDup [97]).2.tmps = storeDup.tmps ∧
     (alookup storeDup.metas (hexEncode (sha256 [97])) = none →
       alookup (putAtomicStream detect0 noFaults storeDup [97]).2.metas
         (hexEncode (sha256 [97])) =
           some ⟨detect0 (([97] : List GByte).take 512), ([97] : List GByte).length⟩) ∧
     (∀ m, alookup storeDup.metas (hexEncode (sha256 [97])) = some m →
       (putAtomicStream detect0 noFaults storeDup [97]).2 = storeDup)) :=
  ⟨by decide, by simp [storeDup, alookup],
   C4_idempotent detect0 storeDup [97] [97] (by decide) (by simp [storeDup, alookup])⟩

/-- Any successful result of putAtomicStream, under any fault schedule,
carries the hex SHA-256 digest of the input and the media type sniffed
from the 512-byte prefix. -/
theorem put_shape (detect : List GByte → String) (fl : Faults) (s : Store) (b : List GByte) :
    (putAtomicStream detect fl s b).1 = Except.error () ∨
    ∃ sz, (putAtomicStream detect fl s b).1 =
      Except.ok ⟨hexEncode (sha256 b), sz, detect (b.take 512)⟩ := by
  unfold putAtomicStream
  simp only [List.nil_append, List.take_append_drop]
  by_cases hc1 : fl.mkdirTmp = true
  · rw [if_pos hc1]; exact Or.inl rfl
  rw [if_neg hc1]
  by_cases hc2 : fl.createTemp = true
  · rw [if_pos hc2]; exact Or.inl rfl
  rw [if_neg hc2]
  by_cases hc3 : fl.sniffRead = true
  · rw [if_pos hc3]; exact Or.inl rfl
  rw [if_neg hc3]
  by_cases hc4 : b.length = 0
  · rw [if_pos hc4]; exact Or.inl rfl
  rw [if_neg hc4]
  by_cases hc5 : fl.writeSniff = true
  · rw [if_pos hc5]; exact Or.inl rfl
  rw [if_neg hc5]
  by_cases hc6 : fl.copyBody = true
  · rw [if_pos hc6]; exact Or.inl rfl
  rw [if_neg hc6]
  by_cases hc7 : fl.statFinal = true
  · rw [if_pos hc7]; exact Or.inl rfl
  rw [if_neg hc7]
  cases halo : alookup s.blobs (hexEncode (sha256 b)) with
  | some c =>
    simp only [halo]
    cases hmm : alookup s.metas (hexEncode (sha256 b)) with
    | none =>
      simp only [hmm]
      by_cases hw : fl.writeMeta = true
      · rw [if_pos hw]; exact Or.inr ⟨_, rfl⟩
      · rw [if_neg hw]; exact Or.inr ⟨_, rfl⟩
    | some m => simp only [hmm]; exact Or.inr ⟨_, rfl⟩
  | none =>
    simp only [halo]
    by_cases hc8 : fl.syncTmp = true
    · rw [if_pos hc8]; exact Or.inl rfl
    rw [if_neg hc8]
    by_cases hc9 : fl.closeTmp = true
    · rw [if_pos hc9]; exact Or.inl rfl
    rw [if_neg hc9]
    by_cases hc10 : fl.renameTmp = true
    · rw [if_pos hc10]; exact Or.inl rfl
    rw [if_neg hc10]
    by_cases hw : fl.writeMeta = true
    · rw [if_pos hw]; exact Or.inl rfl
    · rw [if_neg hw]; exact Or.inr ⟨_, rfl⟩

/-- C5: the code behavior at the failing input of the claim.  A POST of
an empty body is not answered with a 4xx client error: putAtomicStream
propagates the io.EOF of io.ReadFull, and the handler maps every
ingestion error to a 500 internal-server-error response (the store is
left unchanged). -/
theorem C5_empty_body_500 (detect : List GByte → String) (s : Store) :
    handleObjectsPost detect noFaults s "POST" [] = (⟨500, none⟩, s) := rfl

/-- C6, as frozen, is false at the zero-length stream: putAtomicStream
fails with an error before any media type is produced, even under a
classifier that would report a type for empty content, so no
binary/unknown classification is ever returned. -/
theorem C6_counterexample :
    (putAtomicStream dText noFaults store0 []).1 = Except.error () := rfl

/-- C6 (amended): for nonempty streams shorter than the 512-byte cap any
successful run classifies on the full short content, while a zero-length
stream makes the processing step fail before classification. -/
theorem C6_short_sniff (detect : List GByte → String) (fl : Faults) (s : Store)
    (b : List GByte) (hshort : b.length < 512) :
    (∀ r, (putAtomicStream detect fl s b).1 = Except.ok r → r.ct = detect b) ∧
    (b = [] → (putAtomicStream detect fl s b).1 = Except.error ()) := by
  constructor
  · intro r h
    rcases put_shape detect fl s b with hsh | ⟨sz, hsh⟩
    · rw [hsh] at h
      exact absurd h (by simp)
    · rw [hsh] at h
      have hr := Except.ok.inj h
      rw [← hr]
      rw [List.take_of_length_le (Nat.le_of_lt hshort)]
  · intro hb
    subst hb
    rcases put_shape detect fl s [] with hsh | ⟨sz, hsh⟩
    · exact hsh
    · exfalso
      unfold putAtomicStream at hsh
      by_cases hc1 : fl.mkdirTmp = true
      · rw [if_pos hc1] at hsh
        exact absurd hsh (by simp)
      rw [if_neg hc1] at hsh
      by_cases hc2 : fl.createTemp = true
      · rw [if_pos hc2] at hsh
        exact absurd hsh (by simp)
      rw [if_neg hc2] at hsh
      by_cases hc3 : fl.sniffRead = true
      · rw [if_pos hc3] at hsh
        exact absurd hsh (by simp)
      rw [if_neg hc3] at hsh
      rw [if_pos (show ([] : List GByte).length = 0 from rfl)] at hsh
      exact absurd hsh (by simp)

/-- Witness for C6_short_sniff at b = [97]. -/
theorem C6_short_sniff_witness :
    (([97] : List GByte).length < 512) ∧
    ((∀ r, (putAtomicStream detect0 noFaults store0 [97]).1 = Except.ok r →
        r.ct = detect0 [97]) ∧
     (([97] : List GByte) = [] →
        (putAtomicStream detect0 noFaults store0 [97]).1 = Except.error ())) :=
  ⟨by decide, C6_short_sniff detect0 noFaults store0 [97] (by decide)⟩

/-- C7: a GET for an id whose base does not match the digest syntax is
answered 400 with no blob path ever joined or opened (the response is
independent of the store, no filesystem access happens), and whenever a
blob path is opened the id matched the digest syntax and the path is
that id plus the blob extension — so no crafted path-like id reaches the
filesystem. -/
theorem C7_malformed_id (s : Store) (urlPath : String) :
    (idReMatch (filepathBase urlPath) = false →
      handleObjectsGet s "GET" urlPath = ⟨400, none, none, none⟩) ∧
    (∀ q, (handleObjectsGet s "GET" urlPath).opened = some q →
      idReMatch (filepathBase urlPath) = true ∧
      q = filepathBase urlPath ++ ".blob") := by
  unfold handleObjectsGet
  rw [if_neg (by simp)]
  by_cases hm : idReMatch (filepathBase urlPath) = false
  · rw [if_pos hm]
    exact ⟨fun _ => rfl, fun q hq => Option.noConfusion hq⟩
  · rw [if_neg hm]
    refine ⟨fun hc => absurd hc hm, fun q hq => ?_⟩
    have htrue : idReMatch (filepathBase urlPath) = true := by
      cases hx : idReMatch (filepathBase urlPath) with
      | false => exact absurd hx hm
      | true => rfl
    refine ⟨htrue, ?_⟩
    cases halo : alookup s.blobs (filepathBase urlPath) with
    | none =>
      simp only [halo] at hq
      exact (Option.some.inj hq).symm
    | some c =>
      simp only [halo] at hq
      exact (Option.some.inj hq).symm

/-- Witness for C7_malformed_id on a crafted path-like id. -/
theorem C7_malformed_id_witness :
    (idReMatch (filepathBase "/objects/../../etc/passwd") = false) ∧
    handleObjectsGet store0 "GET" "/objects/../../etc/passwd" = ⟨400, none, none, none⟩ :=
  ⟨by decide, (C7_malformed_id store0 "/objects/../../etc/passwd").1 (by decide)⟩

/-- C8, as frozen, is false: a path with an empty key remainder is not
rejected — a PUT to the path with bucket b and empty key is accepted
with 201 Created and writes an index entry under the composite key. -/
theorem C8_counterexample :
    (handleObjectByKey detect0 noFaults false 0 store0 "PUT" "/b/" [97]).1.status = 201 ∧
    (alookup (handleObjectByKey detect0 noFaults false 0 store0 "PUT" "/b/" [97]).2.index
      "b/").isSome = true := by
  constructor
  · decide
  · decide

/-- C8 (amended): a request path that does not split into two parts at
the first separator (after trimming the leading slash) is rejected with
400 before any index access; non-emptiness of the parts is not checked. -/
theorem C8_no_separator (detect : List GByte → String) (fl : Faults) (itf : Bool)
    (now : Nat) (s : Store) (method urlPath : String) (body : List GByte)
    (h : (splitN2 (trimOneSlash urlPath)).length ≠ 2) :
    handleObjectByKey detect fl itf now s method urlPath body =
      (⟨400, none, none, none, false⟩, s) := by
  unfold handleObjectByKey
  cases hsp : splitN2 (trimOneSlash urlPath) with
  | nil => simp only [hsp]
  | cons a t =>
    cases t with
    | nil => simp only [hsp]
    | cons c l =>
      cases l with
      | nil =>
        rw [hsp] at h
        simp at h
      | cons d l2 => simp only [hsp]

/-- Witness for C8_no_separator: a one-segment path. -/
theorem C8_no_separator_witness :
    ((splitN2 (trimOneSlash "/nokey")).length ≠ 2) ∧
    handleObjectByKey detect0 noFaults false 0 store0 "GET" "/nokey" [] =
      (⟨400, none, none, none, false⟩, store0) :=
  ⟨by decide, C8_no_separator detect0 noFaults false 0 store0 "GET" "/nokey" [] (by decide)⟩

/-- C9: for a named GET whose path splits into bucket and key, an absent
index key is answered 404, while a present index entry whose referenced
blob is missing is answered 500 — corruption is distinguished from
ordinary not-found. -/
theorem C9_integrity (detect : List GByte → String) (fl : Faults) (itf : Bool)
    (now : Nat) (s : Store) (urlPath bucket key : String) (body : List GByte)
    (hsp : splitN2 (trimOneSlash urlPath) = [bucket, key]) :
    (alookup s.index (bucket ++ "/" ++ key) = none →
      (handleObjectByKey detect fl itf now s "GET" urlPath body).1.status = 404) ∧
    (∀ e, alookup s.index (bucket ++ "/" ++ key) = some e →
      alookup s.blobs e.sha = none →
      (handleObjectByKey detect fl itf now s "GET" urlPath body).1.status = 500) := by
  constructor
  · intro hnone
    unfold handleObjectByKey
    simp only [hsp, if_neg (show ¬ ("GET" : String) = "PUT" by decide),
      if_pos (show ("GET" : String) = "GET" ∨ ("GET" : String) = "HEAD" from Or.inl rfl),
      hnone, true_or, if_true]
  · intro e he hbl
    unfold handleObjectByKey
    simp only [hsp, if_neg (show ¬ ("GET" : String) = "PUT" by decide),
      if_pos (show ("GET" : String) = "GET" ∨ ("GET" : String) = "HEAD" from Or.inl rfl),
      he, hbl, true_or, if_true]

/-- Witness for C9_integrity: an empty index (404) and an index entry
referencing an absent digest (500). -/
theorem C9_integrity_witness :
    (splitN2 (trimOneSlash "/b/k") = ["b", "k"]) ∧
    (handleObjectByKey detect0 noFaults false 0 store0 "GET" "/b/k" []).1.status = 404 ∧
    (handleObjectByKey detect0 noFaults false 0 storeDangling "GET" "/b/k" []).1.status = 500 :=
  ⟨by decide,
   (C9_integrity detect0 noFaults false 0 store0 "/b/k" "b" "k" [] (by decide)).1 rfl,
   (C9_integrity detect0 noFaults false 0 storeDangling "/b/k" "b" "k" [] (by decide)).2
     ⟨"deadbeef", 0, "application/octet-stream", 0⟩ (by simp [storeDangling, alookup]) rfl⟩

/-- C10: on a named PUT whose ingestion succeeds (fresh digest, no
faults) but whose index transaction fails, the response is 500 and no
index entry is written, yet the published blob and its sidecar remain in
the store: the operation is not atomic across blob store and index. -/
theorem C10_index_tx_failure (detect : List GByte → String) (now : Nat) (s : Store)
    (urlPath bucket key : String) (b : List GByte)
    (hsp : splitN2 (trimOneSlash urlPath) = [bucket, key])
    (hb : b ≠ [])
    (hfresh : alookup s.blobs (hexEncode (sha256 b)) = none) :
    (handleObjectByKey detect noFaults true now s "PUT" urlPath b).1.status = 500 ∧
    (handleObjectByKey detect noFaults true now s "PUT" urlPath b).2.index = s.index ∧
    alookup (handleObjectByKey detect noFaults true now s "PUT" urlPath b).2.blobs
      (hexEncode (sha256 b)) = some b ∧
    alookup (handleObjectByKey detect noFaults true now s "PUT" urlPath b).2.metas
      (hexEncode (sha256 b)) = some ⟨detect (b.take 512), b.length⟩ := by
  unfold handleObjectByKey
  rw [putAtomicStream_noFaults detect s b hb]
  simp only [hsp, if_pos (show ("PUT" : String) = "PUT" from rfl)]
  unfold putPost
  simp only [hfresh]
  refine ⟨rfl, rfl, ?_, ?_⟩
  · simp [alookup]
  · simp [alookup]

/-- Witness for C10_index_tx_failure on the empty store at b = [97]. -/
theorem C10_index_tx_failure_witness :
    (splitN2 (trimOneSlash "/b/k") = ["b", "k"]) ∧
    (([97] : List GByte) ≠ []) ∧
    alookup store0.blobs (hexEncode (sha256 [97])) = none ∧
    ((handleObjectByKey detect0 noFaults true 0 store0 "PUT" "/b/k" [97]).1.status = 500 ∧
     (handleObjectByKey detect0 noFaults true 0 store0 "PUT" "/b/k" [97]).2.index = store0.index ∧
     alookup (handleObjectByKey detect0 noFaults true 0 store0 "PUT" "/b/k" [97]).2.blobs
       (hexEncode (sha256 [97])) = some [97] ∧
     alookup (handleObjectByKey detect0 noFaults true 0 store0 "PUT" "/b/k" [97]).2.metas
       (hexEncode (sha256 [97])) =
         some ⟨detect0 (([97] : List GByte).take 512), ([97] : List GByte).length⟩) :=
  ⟨by decide, by decide, rfl,
   C10_index_tx_failure detect0 0 store0 "/b/k" "b" "k" [97] (by decide) (by decide) rfl⟩
